import Mathlib

/-!
Shallow embedding of `src/gamification-engine.js` (fature-gamification-service).

Modelling conventions:
* JavaScript numbers are modelled as rationals (`ℚ`); all arithmetic in the
  source is additions, multiplications, divisions and comparisons of small
  decimals, which ℚ represents exactly.
* Dates are modelled as rational "days since an arbitrary epoch"; the source
  always converts millisecond differences into days before using them.
* `Math.sqrt` appears only inside `calculateVolatility`, whose result is used
  solely in the comparisons `volatility < 0.5` and `volatility > 1`.  The
  embedding keeps volatility symbolically as either a literal rational or the
  expression `sqrt variance / mean` (`Vol`), and decides those two comparisons
  exactly, including the JavaScript edge cases (`mean = 0` gives `Infinity`
  or `NaN`, whose comparisons with a positive constant are reproduced).
* JavaScript strings are Lean `String`s; e.g. risk levels and pattern tags.
-/

namespace Gamify

/-- One entry of `depositHistory`: `{date, amount}`. -/
structure DepositRecord where
  date : ℚ
  amount : ℚ
deriving DecidableEq

/-- One entry of `betHistory`: `{date, amount, result}` with result `'win'`/`'loss'`. -/
structure BetRecord where
  date : ℚ
  amount : ℚ
  result : String
deriving DecidableEq

/-- One entry of `sessionHistory`: `{startTime, duration}` (duration in minutes). -/
structure SessionRecord where
  startTime : ℚ
  duration : ℚ
deriving DecidableEq

/-- The input of `BehaviorAnalyzer.analyze` (the destructured `userData`). -/
structure UserData where
  depositHistory : List DepositRecord
  betHistory : List BetRecord
  sessionHistory : List SessionRecord
  registrationDate : ℚ
  lastActivity : ℚ
deriving DecidableEq

/-- Source `list.reduce((a, b) => a + b, 0)` from the source. -/
def listSum (l : List ℚ) : ℚ := l.foldl (· + ·) 0

/-- Source `Math.max(...amounts)` on a (nonempty in all uses) list; `0` on `[]`. -/
def maxList : List ℚ → ℚ
  | [] => 0
  | a :: as => as.foldl max a

/-- The value `Math.sqrt(variance) / mean` kept symbolically: either the
literal rational returned by the `length < 2` guard, or the pair
(variance, mean). -/
inductive Vol where
  | lit : ℚ → Vol
  | sqrtDiv : (variance : ℚ) → (mean : ℚ) → Vol
deriving DecidableEq

/-- Decides the source comparison `volatility < c` for a positive constant
`c` (the source only uses `c = 0.5`): for `mean > 0` this is
`variance < c² mean²`; for `mean < 0` the value is `≤ 0 < c` hence true;
for `mean = 0` JavaScript yields `Infinity` (variance > 0) or `NaN`
(variance = 0), and both compare `false` against `c`. -/
def Vol.ltc : Vol → ℚ → Bool
  | .lit q, c => decide (q < c)
  | .sqrtDiv va m, c =>
      if 0 < m then decide (va < c ^ 2 * m ^ 2)
      else if m < 0 then true
      else false

/-- Decides the source comparison `volatility > c` for a positive constant
`c` (the source only uses `c = 1`); same edge-case conventions as
`Vol.ltc`: `Infinity > c` is true, `NaN > c` is false, a non-positive value
is not `> c`. -/
def Vol.gtc : Vol → ℚ → Bool
  | .lit q, c => decide (c < q)
  | .sqrtDiv va m, c =>
      if 0 < m then decide (c ^ 2 * m ^ 2 < va)
      else if m < 0 then false
      else if va = 0 then false
      else true

/-- Source `BehaviorAnalyzer.calculateVolatility`: `0` when fewer than two values,
otherwise population standard deviation divided by the mean, represented
symbolically. -/
def calculateVolatility (values : List ℚ) : Vol :=
  if values.length < 2 then .lit 0
  else
    let mean := listSum values / values.length
    let variance := listSum (values.map (fun v => (v - mean) ^ 2)) / values.length
    .sqrtDiv variance mean

/-- Source `BehaviorAnalyzer.calculateTrend`. -/
def calculateTrend (values : List ℚ) : String :=
  if values.length < 2 then "stable"
  else
    let firstHalf := values.take (values.length / 2)
    let secondHalf := values.drop (values.length / 2)
    let firstAvg := listSum firstHalf / firstHalf.length
    let secondAvg := listSum secondHalf / secondHalf.length
    if secondAvg > firstAvg * (11 / 10) then "increasing"
    else if secondAvg < firstAvg * (9 / 10) then "decreasing"
    else "stable"

/-- Result record of `analyzeDeposits`. -/
structure DepositAnalysis where
  frequency : ℚ
  averageAmount : ℚ
  trend : String
  volatility : Vol
  totalDeposits : ℕ
  totalAmount : ℚ

/-- Source `BehaviorAnalyzer.analyzeDeposits`. -/
def analyzeDeposits (depositHistory : List DepositRecord) : DepositAnalysis :=
  match depositHistory with
  | [] => { frequency := 0, averageAmount := 0, trend := "none",
            volatility := .lit 0, totalDeposits := 0, totalAmount := 0 }
  | d :: ds =>
    let hist := d :: ds
    let amounts := hist.map (·.amount)
    let averageAmount := listSum amounts / amounts.length
    let firstDeposit := d.date
    let lastDeposit := (hist.getLastD d).date
    let daysDiff := max 1 (lastDeposit - firstDeposit)
    let frequency := (hist.length : ℚ) / daysDiff
    { frequency := frequency, averageAmount := averageAmount,
      trend := calculateTrend amounts, volatility := calculateVolatility amounts,
      totalDeposits := hist.length, totalAmount := listSum amounts }

/-- Source `BehaviorAnalyzer.determineRiskProfile` (its `betHistory` parameter is
unused in the source as well). -/
def determineRiskProfile (amounts : List ℚ) (_betHistory : List BetRecord) : String :=
  let avgAmount := listSum amounts / amounts.length
  let maxAmount := maxList amounts
  if maxAmount > avgAmount * 5 then "aggressive"
  else if avgAmount < 10 then "conservative"
  else "moderate"

/-- Result record of `analyzeBetting`. -/
structure BettingAnalysis where
  frequency : ℚ
  averageAmount : ℚ
  winRate : ℚ
  riskProfile : String
  totalBets : ℕ
  totalAmount : ℚ

/-- Source `BehaviorAnalyzer.analyzeBetting`. -/
def analyzeBetting (betHistory : List BetRecord) : BettingAnalysis :=
  match betHistory with
  | [] => { frequency := 0, averageAmount := 0, winRate := 0,
            riskProfile := "unknown", totalBets := 0, totalAmount := 0 }
  | b :: bs =>
    let hist := b :: bs
    let amounts := hist.map (·.amount)
    let averageAmount := listSum amounts / amounts.length
    let wins := (hist.filter (fun r => r.result == "win")).length
    let winRate := (wins : ℚ) / hist.length
    let daysDiff := max 1 ((hist.getLastD b).date - b.date)
    let frequency := (hist.length : ℚ) / daysDiff
    { frequency := frequency, averageAmount := averageAmount, winRate := winRate,
      riskProfile := determineRiskProfile amounts hist,
      totalBets := hist.length, totalAmount := listSum amounts }

/-- Source `new Date(t).getHours()` for a time `t` in days: the hour-of-day in
`0..23` (UTC model). -/
def hourOf (t : ℚ) : ℕ := (⌊t * 24⌋ % 24).toNat

/-- Number of sessions starting at hour `h` (the value `hourCounts[h]`). -/
def countHour (sessionHistory : List SessionRecord) (h : ℕ) : ℕ :=
  (sessionHistory.filter (fun s => hourOf s.startTime == h)).length

/-- The hours that occur at least once, in ascending order: JavaScript
objects enumerate integer-like keys (here the hours `0..23`) in ascending
numeric order, so `Object.entries(hourCounts)` lists them ascending. -/
def occurringHours (sessionHistory : List SessionRecord) : List ℕ :=
  (List.range 24).filter (fun h => decide (0 < countHour sessionHistory h))

/-- The `Object.entries(hourCounts)` list: (hour, count) pairs, hours ascending. -/
def hourEntries (sessionHistory : List SessionRecord) : List (ℕ × ℕ) :=
  (occurringHours sessionHistory).map (fun h => (h, countHour sessionHistory h))

/-- Stable insertion used to model `Array.prototype.sort` (stable since
ES2019): `a` is placed before the first element `b` it need not follow,
i.e. the first `b` with `le a b`; ties keep the original order because the
inserted element came earlier in the original list. -/
def insertStable (le : α → α → Bool) (a : α) : List α → List α
  | [] => [a]
  | b :: bs => if le a b then a :: b :: bs else b :: insertStable le a bs

/-- Stable sort by repeated insertion (models the stable `Array.sort`). -/
def sortStable (le : α → α → Bool) : List α → List α
  | [] => []
  | a :: as => insertStable le a (sortStable le as)

/-- The comparator `([,a],[,b]) => b - a` on counts: `x` may stay before `y`
iff `y.count ≤ x.count`. -/
def hcLe (x y : ℕ × ℕ) : Bool := decide (y.2 ≤ x.2)

/-- Source `BehaviorAnalyzer.identifyPeakHours`: sort the (hour, count) entries by
count descending (stable), take the first three, keep the hours. -/
def identifyPeakHours (sessionHistory : List SessionRecord) : List ℕ :=
  ((sortStable hcLe (hourEntries sessionHistory)).take 3).map Prod.fst

/-- Result record of `analyzeSessions`. -/
structure SessionAnalysis where
  averageDuration : ℚ
  frequency : ℚ
  peakHours : List ℕ
  totalSessions : ℕ

/-- Source `BehaviorAnalyzer.analyzeSessions`. -/
def analyzeSessions (sessionHistory : List SessionRecord) : SessionAnalysis :=
  match sessionHistory with
  | [] => { averageDuration := 0, frequency := 0, peakHours := [], totalSessions := 0 }
  | s :: ss =>
    let hist := s :: ss
    let durations := hist.map (·.duration)
    let averageDuration := listSum durations / durations.length
    let daysDiff := max 1 ((hist.getLastD s).startTime - s.startTime)
    let frequency := (hist.length : ℚ) / daysDiff
    { averageDuration := averageDuration, frequency := frequency,
      peakHours := identifyPeakHours hist, totalSessions := hist.length }

/-- Source `BehaviorAnalyzer.calculateActivityLevel` (the `accountAge` argument is
ignored by the source as well). -/
def calculateActivityLevel (_accountAge daysSinceLastActivity : ℚ) : String :=
  if daysSinceLastActivity < 1 then "very_high"
  else if daysSinceLastActivity < 7 then "high"
  else if daysSinceLastActivity < 30 then "medium"
  else "low"

/-- Result record of `analyzeTemporalPatterns`. -/
structure TemporalAnalysis where
  accountAge : ℚ
  daysSinceLastActivity : ℚ
  activityLevel : String

/-- Source `BehaviorAnalyzer.analyzeTemporalPatterns`; `now` is the `Date.now()`
evaluation instant, in days. -/
def analyzeTemporalPatterns (now : ℚ) (ud : UserData) : TemporalAnalysis :=
  let accountAge := now - ud.registrationDate
  let daysSinceLastActivity := now - ud.lastActivity
  { accountAge := accountAge, daysSinceLastActivity := daysSinceLastActivity,
    activityLevel := calculateActivityLevel accountAge daysSinceLastActivity }

/-- Source `BehaviorAnalyzer.calculateBehaviorScore`: base 50 plus fixed
threshold-gated increments, clamped to `[0, 100]`. -/
def calculateBehaviorScore (d : DepositAnalysis) (b : BettingAnalysis)
    (s : SessionAnalysis) (t : TemporalAnalysis) : ℚ :=
  let score : ℚ := 50
    + (if d.frequency > 1 / 10 then 10 else 0)
    + (if d.averageAmount > 100 then 10 else 0)
    + (if d.volatility.ltc (1 / 2) then 5 else 0)
    + (if b.winRate > 4 / 10 then 10 else 0)
    + (if b.frequency > 1 then 5 else 0)
    + (if b.riskProfile == "conservative" then 10 else 0)
    + (if s.frequency > 1 / 2 then 5 else 0)
    + (if s.averageDuration > 30 then 5 else 0)
    + (if t.activityLevel == "high" then 10 else 0)
    + (if t.daysSinceLastActivity < 7 then 5 else 0)
  min 100 (max 0 score)

/-- Source `BehaviorAnalyzer.determineRiskLevel`. -/
def determineRiskLevel (score : ℚ) : String :=
  if score ≥ 80 then "low"
  else if score ≥ 60 then "medium"
  else if score ≥ 40 then "high"
  else "very_high"

/-- Source `BehaviorAnalyzer.identifyPatterns`: the pushes onto `patterns`, in
source order. -/
def identifyPatterns (d : DepositAnalysis) (b : BettingAnalysis)
    (_s : SessionAnalysis) (t : TemporalAnalysis) : List String :=
  (if d.frequency > 1 then ["frequent_depositor"] else [])
  ++ (if d.volatility.gtc 1 then ["volatile_deposits"] else [])
  ++ (if b.riskProfile == "aggressive" then ["high_risk_bettor"] else [])
  ++ (if b.winRate < 3 / 10 then ["frequent_loser"] else [])
  ++ (if t.daysSinceLastActivity > 30 then ["inactive_user"] else [])

/-- Source `BehaviorAnalyzer.generateRecommendations` (the `score` parameter is
unused by the source body as well). -/
def generateRecommendations (_score : ℚ) (riskLevel : String)
    (patterns : List String) : List String :=
  (if riskLevel == "low" then ["Oferecer baús premium", "Programa VIP"]
   else if riskLevel == "medium" then ["Baús padrão com bônus", "Promoções moderadas"]
   else ["Baús básicos", "Monitoramento aumentado"])
  ++ (if patterns.contains "inactive_user" then ["Campanha de reativação"] else [])
  ++ (if patterns.contains "frequent_depositor" then ["Programa de fidelidade"] else [])

/-- The output record of `BehaviorAnalyzer.analyze` (`details` inlined). -/
structure BehaviorAnalysis where
  score : ℚ
  riskLevel : String
  patterns : List String
  recommendations : List String
  depositAnalysis : DepositAnalysis
  bettingAnalysis : BettingAnalysis
  sessionAnalysis : SessionAnalysis
  temporalAnalysis : TemporalAnalysis

/-- Source `BehaviorAnalyzer.analyze`, with the `Date.now()` instant made an
explicit parameter `now` (in days). -/
def analyze (now : ℚ) (ud : UserData) : BehaviorAnalysis :=
  let d := analyzeDeposits ud.depositHistory
  let b := analyzeBetting ud.betHistory
  let s := analyzeSessions ud.sessionHistory
  let t := analyzeTemporalPatterns now ud
  let score := calculateBehaviorScore d b s t
  let riskLevel := determineRiskLevel score
  let patterns := identifyPatterns d b s t
  { score := score, riskLevel := riskLevel, patterns := patterns,
    recommendations := generateRecommendations score riskLevel patterns,
    depositAnalysis := d, bettingAnalysis := b,
    sessionAnalysis := s, temporalAnalysis := t }

/-- The activity-signals record consumed by
`RewardCalculator.calculateBonusMultiplier`. -/
structure UserActivity where
  recentActivity : ℚ
  loyaltyLevel : String
  weeklyVolume : ℚ
deriving DecidableEq

/-- Source `RewardCalculator.calculateBonusMultiplier`: base 1.0 plus additive
bonuses for recent activity, loyalty and weekly volume. -/
def calculateBonusMultiplier (ua : UserActivity) : ℚ :=
  1 + (if ua.recentActivity > 8 / 10 then 2 / 10 else 0)
    + (if ua.loyaltyLevel == "vip" then 3 / 10
       else if ua.loyaltyLevel == "premium" then 15 / 100 else 0)
    + (if ua.weeklyVolume > 1000 then 1 / 10 else 0)

/-- Helper: the behavior score is a clamp of a rational to `[0, 100]`. -/
theorem calculateBehaviorScore_range (d : DepositAnalysis) (b : BettingAnalysis)
    (s : SessionAnalysis) (t : TemporalAnalysis) :
    0 ≤ calculateBehaviorScore d b s t ∧ calculateBehaviorScore d b s t ≤ 100 := by
  unfold calculateBehaviorScore
  exact ⟨le_min (by norm_num) (le_max_left 0 _), min_le_left _ _⟩

/-- C5: for every evaluation instant and every input user activity history,
the score returned by `analyze` lies in the interval `[0, 100]`. -/
theorem C5_score_in_range (now : ℚ) (ud : UserData) :
    0 ≤ (analyze now ud).score ∧ (analyze now ud).score ≤ 100 := by
  have h := calculateBehaviorScore_range (analyzeDeposits ud.depositHistory)
    (analyzeBetting ud.betHistory) (analyzeSessions ud.sessionHistory)
    (analyzeTemporalPatterns now ud)
  simpa [analyze] using h

/-- C8: for the activity signals `{recentActivity: 0.9, loyaltyLevel: 'vip',
weeklyVolume: 1500}`, the bonus multiplier is exactly 1.6 = 1.0 + 0.2 + 0.3
+ 0.1 (all applicable bonuses stack additively). -/
theorem C8_bonus_multiplier :
    calculateBonusMultiplier
      { recentActivity := 9 / 10, loyaltyLevel := "vip", weeklyVolume := 1500 }
      = 1.6 := by
  norm_num [calculateBonusMultiplier]

/-- A user activity history with no deposits, no bets and no sessions. -/
def mkEmptyUserData (reg la : ℚ) : UserData :=
  { depositHistory := [], betHistory := [], sessionHistory := [],
    registrationDate := reg, lastActivity := la }

/-- C1 counterexample: at evaluation instant 10, for an empty activity
history with last activity 10 days earlier, `analyze` does NOT return
score 50, risk level `medium` and an empty pattern set: the empty deposit
history reports volatility 0, which passes the `volatility < 0.5` check and
adds 5 (score 55, risk `high`), and the empty bet history reports win rate
0, which passes the `winRate < 0.3` check and adds the `frequent_loser`
pattern. -/
theorem C1_counterexample :
    ¬ ((analyze 10 (mkEmptyUserData 0 0)).score = 50 ∧
       (analyze 10 (mkEmptyUserData 0 0)).riskLevel = "medium" ∧
       (analyze 10 (mkEmptyUserData 0 0)).patterns = []) := by
  intro h
  have hs : (analyze 10 (mkEmptyUserData 0 0)).score = 55 := by
    norm_num [analyze, mkEmptyUserData, analyzeDeposits, analyzeBetting,
      analyzeSessions, analyzeTemporalPatterns, calculateBehaviorScore,
      calculateActivityLevel, Vol.ltc]
    all_goals try simp
    all_goals try norm_num
  rw [h.1] at hs
  norm_num at hs

/-- C1 amended: for every empty activity history (no deposits, bets or
sessions) whose last activity lies between 7 and 30 days before the
evaluation instant, `analyze` returns score 55, risk level `high`, and the
pattern set `{frequent_loser}`. -/
theorem C1_amended_empty_history (now reg la : ℚ)
    (h7 : 7 ≤ now - la) (h30 : now - la ≤ 30) :
    (analyze now (mkEmptyUserData reg la)).score = 55 ∧
    (analyze now (mkEmptyUserData reg la)).riskLevel = "high" ∧
    (analyze now (mkEmptyUserData reg la)).patterns = ["frequent_loser"] := by
  have hd7 : ¬ (now - la < 7) := not_lt.2 h7
  have hd1 : ¬ (now - la < 1) := fun h => hd7 (h.trans_le (by norm_num))
  have hd30 : ¬ ((30 : ℚ) < now - la) := not_lt.2 h30
  by_cases hmed : now - la < 30 <;>
    refine ⟨?_, ?_, ?_⟩ <;>
      norm_num [analyze, mkEmptyUserData, analyzeDeposits, analyzeBetting,
        analyzeSessions, analyzeTemporalPatterns, calculateBehaviorScore,
        determineRiskLevel, identifyPatterns, calculateActivityLevel,
        Vol.ltc, Vol.gtc, hd7, hd1, hd30, hmed]
  all_goals try simp
  all_goals try norm_num

/-- Witness for C1's amended theorem at the concrete instant 10 with last
activity at 0 (10 days earlier). -/
theorem C1_amended_witness :
    (7 : ℚ) ≤ 10 - 0 ∧ (10 : ℚ) - 0 ≤ 30 ∧
    ((analyze 10 (mkEmptyUserData 0 0)).score = 55 ∧
     (analyze 10 (mkEmptyUserData 0 0)).riskLevel = "high" ∧
     (analyze 10 (mkEmptyUserData 0 0)).patterns = ["frequent_loser"]) :=
  ⟨by norm_num, by norm_num,
   C1_amended_empty_history 10 0 0 (by norm_num) (by norm_num)⟩

/-- The evaluation instant of the end-to-end scenario (June 15 2025, 10:00,
measured in days from January 1 2025, 00:00). -/
def vipNow : ℚ := 165 + 10 / 24

/-- The end-to-end scenario input: three deposits of 500, 300, 800
(averaging 533.33) on June 1/5/10, three bets with two wins on June 1-3,
two sessions of 120 and 90 minutes (averaging 105), registration 182 days
(six months) before the evaluation instant, last activity June 14 22:00
(half a day before the evaluation instant). -/
def vipUserData : UserData :=
  { depositHistory := [⟨151, 500⟩, ⟨155, 300⟩, ⟨160, 800⟩],
    betHistory := [⟨151, 50, "win"⟩, ⟨152, 100, "loss"⟩, ⟨153, 75, "win"⟩],
    sessionHistory := [⟨151 + 20 / 24, 120⟩, ⟨152 + 21 / 24, 90⟩],
    registrationDate := vipNow - 182,
    lastActivity := 164 + 22 / 24 }

/-- C6: on the spec's end-to-end scenario (three deposits averaging 533.3,
three bets with 2 wins, two sessions averaging 105 minutes, registration
six months before the evaluation instant, last activity within one day of
it), `analyze` returns a score of at least 80 (in fact exactly 100), risk
level `low`, and a pattern set without `inactive_user`. -/
theorem C6_end_to_end :
    80 ≤ (analyze vipNow vipUserData).score ∧
    (analyze vipNow vipUserData).riskLevel = "low" ∧
    "inactive_user" ∉ (analyze vipNow vipUserData).patterns ∧
    vipUserData.depositHistory.length = 3 ∧
    (analyze vipNow vipUserData).depositAnalysis.averageAmount = 1600 / 3 ∧
    (analyze vipNow vipUserData).bettingAnalysis.winRate = 2 / 3 ∧
    vipUserData.sessionHistory.length = 2 ∧
    (analyze vipNow vipUserData).sessionAnalysis.averageDuration = 105 ∧
    vipNow - vipUserData.lastActivity < 1 := by
  refine ⟨?_, ?_, ?_, ?_, ?_, ?_, ?_, ?_, ?_⟩ <;>
    norm_num [analyze, vipUserData, vipNow, analyzeDeposits, analyzeBetting,
      analyzeSessions, analyzeTemporalPatterns, calculateBehaviorScore,
      determineRiskLevel, identifyPatterns, calculateActivityLevel,
      determineRiskProfile, calculateTrend, calculateVolatility,
      listSum, maxList, Vol.ltc, Vol.gtc]
  all_goals try simp
  all_goals try norm_num

/-- C10: two empty activity histories identical except for the last-activity
instant; the more recently active one (half a day, activity level
`very_high`) scores exactly 10 points below the one last active 2 days ago
(activity level `high`), because the +10 bonus fires only for the level
`high`. -/
theorem C10_recency_nonmonotone :
    mkEmptyUserData 0 (199 / 2) =
      { mkEmptyUserData 0 98 with lastActivity := 199 / 2 } ∧
    (100 : ℚ) - (199 / 2) < 1 ∧
    1 ≤ (100 : ℚ) - 98 ∧ (100 : ℚ) - 98 < 7 ∧
    (analyzeTemporalPatterns 100 (mkEmptyUserData 0 (199 / 2))).activityLevel
      = "very_high" ∧
    (analyzeTemporalPatterns 100 (mkEmptyUserData 0 98)).activityLevel
      = "high" ∧
    (analyze 100 (mkEmptyUserData 0 (199 / 2))).score + 10
      = (analyze 100 (mkEmptyUserData 0 98)).score := by
  refine ⟨rfl, by norm_num, by norm_num, by norm_num, ?_, ?_, ?_⟩ <;>
    norm_num [analyze, mkEmptyUserData, analyzeDeposits, analyzeBetting,
      analyzeSessions, analyzeTemporalPatterns, calculateBehaviorScore,
      calculateActivityLevel, Vol.ltc]
  all_goals try simp
  all_goals try norm_num

/-- Inserting with `insertStable` is a permutation of consing. -/
theorem insertStable_perm (le : α → α → Bool) (a : α) (l : List α) :
    List.Perm (insertStable le a l) (a :: l) := by
  induction l with
  | nil => exact List.Perm.refl _
  | cons b bs ih =>
    by_cases h : le a b <;> simp only [insertStable, h]
    · simp
    · exact (ih.cons b).trans (List.Perm.swap a b bs)

/-- Source `sortStable` permutes its input. -/
theorem sortStable_perm (le : α → α → Bool) (l : List α) :
    List.Perm (sortStable le l) l := by
  induction l with
  | nil => exact List.Perm.refl _
  | cons a as ih => exact (insertStable_perm le a _).trans (ih.cons a)

/-- Inserting into a list sorted by a total transitive comparator keeps it
sorted. -/
theorem pairwise_insertStable {le : α → α → Bool}
    (htot : ∀ x y, le x y = true ∨ le y x = true)
    (htrans : ∀ x y z, le x y = true → le y z = true → le x z = true)
    (a : α) (l : List α) (hl : l.Pairwise (fun x y => le x y = true)) :
    (insertStable le a l).Pairwise (fun x y => le x y = true) := by
  induction l with
  | nil => simp [insertStable]
  | cons b bs ih =>
    rw [List.pairwise_cons] at hl
    obtain ⟨hb, hbs⟩ := hl
    by_cases h : le a b <;> simp only [insertStable, h, if_true, if_false]
    · refine List.pairwise_cons.2 ⟨?_, List.pairwise_cons.2 ⟨hb, hbs⟩⟩
      intro c hc
      rcases List.mem_cons.1 hc with rfl | hc
      · exact h
      · exact htrans _ _ _ h (hb c hc)
    · have hba : le b a = true := (htot a b).resolve_left h
      refine List.pairwise_cons.2 ⟨?_, ih hbs⟩
      intro c hc
      rcases List.mem_cons.1 ((insertStable_perm le a bs).mem_iff.1 hc) with rfl | hc2
      · exact hba
      · exact hb c hc2

/-- Source `sortStable` sorts with respect to a total transitive comparator. -/
theorem pairwise_sortStable {le : α → α → Bool}
    (htot : ∀ x y, le x y = true ∨ le y x = true)
    (htrans : ∀ x y z, le x y = true → le y z = true → le x z = true)
    (l : List α) :
    (sortStable le l).Pairwise (fun x y => le x y = true) := by
  induction l with
  | nil => simp [sortStable]
  | cons a as ih => exact pairwise_insertStable htot htrans a _ ih

/-- Strict lexicographic order on (hour, count) pairs: larger count first,
ties resolved toward the smaller hour. -/
def lexGT (x y : ℕ × ℕ) : Prop := y.2 < x.2 ∨ (x.2 = y.2 ∧ x.1 < y.1)

/-- Source `lexGT` is transitive. -/
theorem lexGT_trans {x y z : ℕ × ℕ} (h1 : lexGT x y) (h2 : lexGT y z) :
    lexGT x z := by
  unfold lexGT at *
  omega

/-- Stable insertion by descending count of an element whose hour is below
every hour present preserves `lexGT`-sortedness. -/
theorem pairwise_lex_insertStable (a : ℕ × ℕ) (l : List (ℕ × ℕ))
    (hl : l.Pairwise lexGT) (ha : ∀ b ∈ l, a.1 < b.1) :
    (insertStable hcLe a l).Pairwise lexGT := by
  induction l with
  | nil => simp [insertStable]
  | cons b bs ih =>
    rw [List.pairwise_cons] at hl
    obtain ⟨hb, hbs⟩ := hl
    by_cases h : hcLe a b <;> simp only [insertStable, h, if_true, if_false]
    · have hab : lexGT a b := by
        have h2 : b.2 ≤ a.2 := by simpa [hcLe] using h
        have h1 : a.1 < b.1 := ha b (List.mem_cons_self b bs)
        unfold lexGT
        omega
      refine List.pairwise_cons.2 ⟨?_, List.pairwise_cons.2 ⟨hb, hbs⟩⟩
      intro c hc
      rcases List.mem_cons.1 hc with rfl | hc
      · exact hab
      · exact lexGT_trans hab (hb c hc)
    · have hba : a.2 < b.2 := by
        have h2 : ¬ b.2 ≤ a.2 := by simpa [hcLe] using h
        omega
      refine List.pairwise_cons.2
        ⟨?_, ih hbs (fun c hc => ha c (List.mem_cons_of_mem b hc))⟩
      intro c hc
      rcases List.mem_cons.1 ((insertStable_perm hcLe a bs).mem_iff.1 hc) with rfl | hc2
      · exact Or.inl hba
      · exact hb c hc2

/-- The stable sort by descending count of a list with strictly ascending
hours is sorted for the full lexicographic order `lexGT` (count descending,
hour ascending on ties). -/
theorem pairwise_lex_sortStable (l : List (ℕ × ℕ))
    (hl : l.Pairwise (fun x y => x.1 < y.1)) :
    (sortStable hcLe l).Pairwise lexGT := by
  induction l with
  | nil => simp [sortStable]
  | cons a as ih =>
    rw [List.pairwise_cons] at hl
    obtain ⟨ha, has⟩ := hl
    exact pairwise_lex_insertStable a _ (ih has)
      (fun b hb => ha b ((sortStable_perm hcLe as).subset hb))

/-- The user profile consumed by `ChestOptimizer.optimize` (only the fields
the optimizer reads: `history` entries are opaque). -/
structure UserProfile where
  behaviorScore : ℚ
  riskLevel : String
  history : List ℚ

/-- A chest tier configuration `{successRate, minValue, maxValue}`. -/
structure ChestTierConfig where
  successRate : ℚ
  minValue : ℚ
  maxValue : ℚ
deriving DecidableEq

/-- Source `ChestOptimizer.getGamificationConfigs`: the hardcoded silver, gold and
platinum tiers, as a lookup from tier id. -/
def gamificationConfigs (chestType : String) : Option ChestTierConfig :=
  if chestType == "silver" then some ⟨7 / 10, 10, 50⟩
  else if chestType == "gold" then some ⟨1 / 2, 25, 100⟩
  else if chestType == "platinum" then some ⟨3 / 10, 50, 200⟩
  else none

/-- The score/risk adjustment of a tier's success rate inside
`calculateChestPotentials` (before the `Math.min(1.0, ...)` clamp). -/
def adjustPotential (p : UserProfile) (successRate : ℚ) : ℚ :=
  let p1 := if p.behaviorScore > 80 then successRate * (12 / 10)
            else if p.behaviorScore < 40 then successRate * (8 / 10)
            else successRate
  if p.riskLevel == "low" then p1 * (11 / 10)
  else if p.riskLevel == "very_high" then p1 * (7 / 10)
  else p1

/-- One value of the `potentials` object built by
`calculateChestPotentials`: note that `expectedValue` is computed from the
UNCLAMPED adjusted rate, while `potential` is clamped. -/
structure ChestPotentialData where
  chestType : String
  potential : ℚ
  expectedValue : ℚ
  config : ChestTierConfig
deriving DecidableEq

/-- The entry `potentials[chestType]` for one tier. -/
def mkPotential (p : UserProfile) (chestType : String)
    (cfg : ChestTierConfig) : ChestPotentialData :=
  let potential := adjustPotential p cfg.successRate
  { chestType := chestType, potential := min 1 potential,
    expectedValue := (cfg.minValue + cfg.maxValue) / 2 * potential,
    config := cfg }

/-- Source `ChestOptimizer.calculateChestPotentials`: one entry per requested tier
with a known configuration; unknown tiers are skipped (`continue`), and a
duplicated tier id overwrites its own identical entry, so duplicates are
dropped keeping first positions (JavaScript object key semantics). -/
def calculateChestPotentials (p : UserProfile) (availableChests : List String) :
    List ChestPotentialData :=
  availableChests.eraseDups.filterMap
    (fun ct => (gamificationConfigs ct).map (mkPotential p ct))

/-- Source `ChestOptimizer.calculateOptimalQuantity`. -/
def calculateOptimalQuantity (d : ChestPotentialData) : ℕ :=
  if d.potential > 8 / 10 then 3
  else if d.potential > 6 / 10 then 2
  else 1

/-- One entry of the returned distribution. -/
structure ChestDistEntry where
  chestType : String
  quantity : ℕ
  potential : ℚ
  expectedValue : ℚ
deriving DecidableEq

/-- The object pushed onto `distribution` for a retained tier. -/
def mkDistEntry (d : ChestPotentialData) : ChestDistEntry :=
  { chestType := d.chestType, quantity := calculateOptimalQuantity d,
    potential := d.potential, expectedValue := d.expectedValue }

/-- The comparator `([,a],[,b]) => b.expectedValue - a.expectedValue`:
`x` may stay before `y` iff `y.expectedValue ≤ x.expectedValue`. -/
def evGe (x y : ChestPotentialData) : Bool :=
  decide (y.expectedValue ≤ x.expectedValue)

/-- Source `ChestOptimizer.optimizeDistribution`: sort by expected value descending
(stable), keep tiers with potential strictly above 0.3, build entries. -/
def optimizeDistribution (potentials : List ChestPotentialData) :
    List ChestDistEntry :=
  ((sortStable evGe potentials).filter
    (fun d => decide ((3 : ℚ) / 10 < d.potential))).map mkDistEntry

/-- Source `ChestOptimizer.calculateExpectedValue`. -/
def calculateExpectedValue (distribution : List ChestDistEntry) : ℚ :=
  distribution.foldl (fun total c => total + c.expectedValue * c.quantity) 0

/-- Source `ChestOptimizer.calculateConfidence`. -/
def calculateConfidence (p : UserProfile) (distribution : List ChestDistEntry) : ℚ :=
  min 1 ((1 / 2)
    + (if p.history.length > 10 then 2 / 10 else 0)
    + (if p.behaviorScore > 60 then 2 / 10 else 0)
    + (if distribution.length > 0 then 1 / 10 else 0))

/-- Source `ChestOptimizer.generateReasoning`. -/
def generateReasoning (p : UserProfile) (distribution : List ChestDistEntry) :
    List String :=
  (if p.behaviorScore > 80 then ["Usuário com alto score comportamental"] else [])
  ++ (if p.riskLevel == "low" then ["Perfil de baixo risco identificado"] else [])
  ++ (if distribution.length > 1 then ["Distribuição diversificada recomendada"] else [])

/-- The output of `ChestOptimizer.optimize`. -/
structure OptimizeResult where
  chests : List ChestDistEntry
  expectedValue : ℚ
  confidence : ℚ
  reasoning : List String

/-- Source `ChestOptimizer.optimize`. -/
def optimize (p : UserProfile) (availableChests : List String) : OptimizeResult :=
  let potentials := calculateChestPotentials p availableChests
  let distribution := optimizeDistribution potentials
  { chests := distribution,
    expectedValue := calculateExpectedValue distribution,
    confidence := calculateConfidence p distribution,
    reasoning := generateReasoning p distribution }

/-- The adjusted success rate of any of the three hardcoded tiers stays
strictly below 1, so the `Math.min(1.0, ...)` clamp never binds. -/
theorem adjustPotential_lt_one (p : UserProfile) (sr : ℚ)
    (h7 : sr ≤ 7 / 10) : adjustPotential p sr < 1 := by
  unfold adjustPotential
  split_ifs <;> nlinarith

/-- Every configuration returned by `gamificationConfigs` has a success
rate of at most `7/10`. -/
theorem gamificationConfigs_successRate {ct : String} {cfg : ChestTierConfig}
    (h : gamificationConfigs ct = some cfg) :
    cfg.successRate ≤ 7 / 10 := by
  unfold gamificationConfigs at h
  split_ifs at h <;> simp only [Option.some.injEq] at h <;> (subst h; norm_num)

/-- C2: every tier entry that `ChestOptimizer.optimize` places in the
returned distribution has `expectedValue` equal to the midpoint of its
tier's `minValue` and `maxValue` times the entry's `potential` field, where
`potential` is the score/risk-adjusted success rate clamped to at most 1.
(The source multiplies the midpoint by the unclamped rate, but for the
three hardcoded tiers the adjusted rate is always below 1, so the clamp is
the identity and the equation holds.) -/
theorem C2_expected_value (p : UserProfile) (avail : List String)
    (e : ChestDistEntry) (he : e ∈ (optimize p avail).chests) :
    ∃ cfg, gamificationConfigs e.chestType = some cfg ∧
      e.potential = min 1 (adjustPotential p cfg.successRate) ∧
      e.expectedValue = (cfg.minValue + cfg.maxValue) / 2 * e.potential := by
  have he2 : e ∈ optimizeDistribution (calculateChestPotentials p avail) := he
  unfold optimizeDistribution at he2
  obtain ⟨d, hd, rfl⟩ := List.mem_map.1 he2
  have hdmem : d ∈ calculateChestPotentials p avail :=
    (sortStable_perm _ _).subset (List.mem_filter.1 hd).1
  unfold calculateChestPotentials at hdmem
  obtain ⟨ct, _hct, heq⟩ := List.mem_filterMap.1 hdmem
  obtain ⟨cfg, hcfg, hmk⟩ := Option.map_eq_some'.1 heq
  subst hmk
  have hlt : adjustPotential p cfg.successRate < 1 :=
    adjustPotential_lt_one p _ (gamificationConfigs_successRate hcfg)
  have hmin : min 1 (adjustPotential p cfg.successRate)
      = adjustPotential p cfg.successRate := min_eq_right hlt.le
  refine ⟨cfg, ?_, ?_, ?_⟩
  · simpa [mkDistEntry, mkPotential] using hcfg
  · simp [mkDistEntry, mkPotential]
  · simp [mkDistEntry, mkPotential, hmin]

/-- Witness for C2 at a concrete profile (score 90, risk `low`) requesting
the silver tier: the single resulting entry has potential
0.7·1.2·1.1 = 0.924 = 231/250 and expected value 30·0.924 = 693/25. -/
theorem C2_witness :
    ((⟨"silver", 3, 231 / 250, 693 / 25⟩ : ChestDistEntry) ∈
      (optimize ⟨90, "low", []⟩ ["silver"]).chests) ∧
    (∃ cfg, gamificationConfigs
        (⟨"silver", 3, 231 / 250, 693 / 25⟩ : ChestDistEntry).chestType = some cfg ∧
      (⟨"silver", 3, 231 / 250, 693 / 25⟩ : ChestDistEntry).potential
        = min 1 (adjustPotential ⟨90, "low", []⟩ cfg.successRate) ∧
      (⟨"silver", 3, 231 / 250, 693 / 25⟩ : ChestDistEntry).expectedValue
        = (cfg.minValue + cfg.maxValue) / 2
          * (⟨"silver", 3, 231 / 250, 693 / 25⟩ : ChestDistEntry).potential) := by
  have hmem : (⟨"silver", 3, 231 / 250, 693 / 25⟩ : ChestDistEntry) ∈
      (optimize ⟨90, "low", []⟩ ["silver"]).chests := by
    norm_num [optimize, optimizeDistribution, calculateChestPotentials,
      mkPotential, adjustPotential, gamificationConfigs, mkDistEntry,
      calculateOptimalQuantity, sortStable, insertStable, evGe,
      List.eraseDups, List.eraseDups.loop]
  exact ⟨hmem, C2_expected_value ⟨90, "low", []⟩ ["silver"] _ hmem⟩

/-- C4: for every user profile and set of available tier ids, the
distribution returned by `ChestOptimizer.optimize` contains only entries
whose potential is strictly greater than 0.3, and its entries are ordered
by non-increasing `expectedValue`. -/
theorem C4_distribution_filtered_sorted (p : UserProfile) (avail : List String) :
    (∀ e ∈ (optimize p avail).chests, (3 : ℚ) / 10 < e.potential) ∧
    (optimize p avail).chests.Pairwise
      (fun a b => b.expectedValue ≤ a.expectedValue) := by
  have hch : (optimize p avail).chests
      = optimizeDistribution (calculateChestPotentials p avail) := rfl
  constructor
  · intro e he
    rw [hch] at he
    unfold optimizeDistribution at he
    obtain ⟨d, hd, rfl⟩ := List.mem_map.1 he
    have hpred := (List.mem_filter.1 hd).2
    simpa [mkDistEntry] using hpred
  · rw [hch]
    unfold optimizeDistribution
    refine List.pairwise_map.2 ?_
    have htot : ∀ x y : ChestPotentialData, evGe x y = true ∨ evGe y x = true := by
      intro x y
      rcases le_total y.expectedValue x.expectedValue with h | h
      · exact Or.inl (by simpa [evGe] using h)
      · exact Or.inr (by simpa [evGe] using h)
    have htrans : ∀ x y z : ChestPotentialData,
        evGe x y = true → evGe y z = true → evGe x z = true := by
      intro x y z hxy hyz
      have h1 : y.expectedValue ≤ x.expectedValue := by simpa [evGe] using hxy
      have h2 : z.expectedValue ≤ y.expectedValue := by simpa [evGe] using hyz
      simpa [evGe] using h2.trans h1
    have hsorted := pairwise_sortStable htot htrans
      (calculateChestPotentials p avail)
    have hfilt := List.Pairwise.sublist
      (@List.filter_sublist _ (fun d => decide ((3 : ℚ) / 10 < d.potential)) _)
      hsorted
    exact hfilt.imp (fun h => by simpa [mkDistEntry, evGe] using h)

/-- Witness for C4 at a concrete profile (score 50, risk `medium`) with all
three tiers requested: platinum (potential exactly 0.3) is excluded, gold
and silver are kept sorted by descending expected value. -/
theorem C4_witness :
    (∀ e ∈ (optimize ⟨50, "medium", []⟩ ["silver", "gold", "platinum"]).chests,
      (3 : ℚ) / 10 < e.potential) ∧
    (optimize ⟨50, "medium", []⟩ ["silver", "gold", "platinum"]).chests.Pairwise
      (fun a b => b.expectedValue ≤ a.expectedValue) :=
  C4_distribution_filtered_sorted ⟨50, "medium", []⟩ ["silver", "gold", "platinum"]

/-- The hour of day extracted from a timestamp is below 24. -/
theorem hourOf_lt (t : ℚ) : hourOf t < 24 := by
  unfold hourOf
  have h1 := Int.emod_lt_of_pos (⌊t * 24⌋) (by norm_num : (0 : ℤ) < 24)
  have h2 := Int.emod_nonneg (⌊t * 24⌋) (by norm_num : (24 : ℤ) ≠ 0)
  omega

/-- An hour with at least one session is a valid hour (below 24). -/
theorem countHour_pos_lt {sessions : List SessionRecord} {h : ℕ}
    (hc : 0 < countHour sessions h) : h < 24 := by
  unfold countHour at hc
  obtain ⟨s, hs⟩ := List.exists_mem_of_ne_nil _ (List.length_pos.1 hc)
  have heq : hourOf s.startTime = h := by
    simpa using (List.mem_filter.1 hs).2
  exact heq ▸ hourOf_lt s.startTime

/-- Every `(hour, count)` entry carries the count of its hour, which is
positive. -/
theorem mem_hourEntries {sessions : List SessionRecord} {e : ℕ × ℕ}
    (he : e ∈ hourEntries sessions) :
    e.2 = countHour sessions e.1 ∧ 0 < countHour sessions e.1 := by
  unfold hourEntries occurringHours at he
  obtain ⟨h, hh, rfl⟩ := List.mem_map.1 he
  exact ⟨rfl, by simpa using (List.mem_filter.1 hh).2⟩

/-- Every hour that occurs contributes its entry to `hourEntries`. -/
theorem hourEntries_complete {sessions : List SessionRecord} {h : ℕ}
    (hc : 0 < countHour sessions h) :
    (h, countHour sessions h) ∈ hourEntries sessions := by
  unfold hourEntries occurringHours
  exact List.mem_map.2 ⟨h, List.mem_filter.2
    ⟨List.mem_range.2 (countHour_pos_lt hc), by simpa using hc⟩, rfl⟩

/-- The `Object.entries` list has strictly ascending hours. -/
theorem hourEntries_ascending (sessions : List SessionRecord) :
    (hourEntries sessions).Pairwise (fun x y => x.1 < y.1) := by
  unfold hourEntries occurringHours
  refine List.pairwise_map.2 ?_
  have hr := List.pairwise_lt_range 24
  exact (List.Pairwise.sublist (List.filter_sublist _) hr).imp (fun hab => hab)

/-- C7: for every non-empty session history, `identifyPeakHours` returns the
three (or fewer, if fewer distinct hours occur) start-of-session hours with
the highest occurrence counts; equal counts prefer the lower hour number
(JavaScript enumerates the integer-like hour keys ascending and
`Array.sort` is stable). Stated as: the result has length `min 3 (number
of occurring hours)`, contains only occurring hours, is sorted by count
descending with ties by hour ascending, and every occurring hour left out
is strictly beaten (or tied and succeeded in hour order) by every hour
kept. -/
theorem C7_peak_hours (sessions : List SessionRecord) (_hne : sessions ≠ []) :
    (identifyPeakHours sessions).length = min 3 (occurringHours sessions).length ∧
    (∀ h ∈ identifyPeakHours sessions, 0 < countHour sessions h) ∧
    (identifyPeakHours sessions).Pairwise (fun h1 h2 =>
      countHour sessions h2 < countHour sessions h1 ∨
      (countHour sessions h1 = countHour sessions h2 ∧ h1 < h2)) ∧
    (∀ h : ℕ, 0 < countHour sessions h → h ∉ identifyPeakHours sessions →
      ∀ h2 ∈ identifyPeakHours sessions,
        countHour sessions h < countHour sessions h2 ∨
        (countHour sessions h = countHour sessions h2 ∧ h2 < h)) := by
  have hperm := sortStable_perm hcLe (hourEntries sessions)
  have hlex := pairwise_lex_sortStable _ (hourEntries_ascending sessions)
  have hsnd : ∀ e ∈ sortStable hcLe (hourEntries sessions),
      e.2 = countHour sessions e.1 ∧ 0 < countHour sessions e.1 :=
    fun e he => mem_hourEntries (hperm.subset he)
  refine ⟨?_, ?_, ?_, ?_⟩
  · unfold identifyPeakHours
    rw [List.length_map, List.length_take, hperm.length_eq]
    unfold hourEntries
    rw [List.length_map]
  · intro h hh
    obtain ⟨e, he, rfl⟩ := List.mem_map.1 hh
    exact (hsnd e (List.take_subset _ _ he)).2
  · have htake : ((sortStable hcLe (hourEntries sessions)).take 3).Pairwise lexGT :=
      List.Pairwise.sublist (List.take_sublist 3 _) hlex
    refine List.pairwise_map.2 (htake.imp_of_mem ?_)
    intro a b ha hb hab
    have ha2 := hsnd a (List.take_subset _ _ ha)
    have hb2 := hsnd b (List.take_subset _ _ hb)
    rcases hab with hlt | ⟨heq, hlt⟩
    · exact Or.inl (by rw [← ha2.1, ← hb2.1]; exact hlt)
    · exact Or.inr ⟨by rw [← ha2.1, ← hb2.1]; exact heq, hlt⟩
  · intro h hc hnotin h2 hh2
    have hmem : (h, countHour sessions h) ∈ sortStable hcLe (hourEntries sessions) :=
      hperm.mem_iff.2 (hourEntries_complete hc)
    obtain ⟨e2, he2, rfl⟩ := List.mem_map.1 hh2
    have hsplit := List.take_append_drop 3 (sortStable hcLe (hourEntries sessions))
    have hdrop : (h, countHour sessions h)
        ∈ (sortStable hcLe (hourEntries sessions)).drop 3 := by
      rcases List.mem_append.1 (by rw [hsplit]; exact hmem) with hin | hin
      · exact absurd (List.mem_map.2 ⟨_, hin, rfl⟩) hnotin
      · exact hin
    have hlex2 : (((sortStable hcLe (hourEntries sessions)).take 3)
        ++ ((sortStable hcLe (hourEntries sessions)).drop 3)).Pairwise lexGT := by
      rw [hsplit]
      exact hlex
    have hcross := (List.pairwise_append.1 hlex2).2.2 e2 he2 _ hdrop
    have he2snd := hsnd e2 (List.take_subset _ _ he2)
    rcases hcross with hlt | ⟨heq, hlt⟩
    · exact Or.inl (by rw [← he2snd.1]; exact hlt)
    · exact Or.inr ⟨by rw [← he2snd.1]; exact heq.symm, hlt⟩

/-- Concrete session history for the C7 witness: hours 20, 21, 20, 22, so
hour 20 occurs twice and hours 21 and 22 tie with one occurrence each. -/
def sessionsW : List SessionRecord :=
  [⟨20 / 24, 30⟩, ⟨21 / 24, 30⟩, ⟨1 + 20 / 24, 45⟩, ⟨22 / 24, 15⟩]

/-- Witness for C7 on `sessionsW`: the peak hours are the top-3 counted
hours with ties broken toward the lower hour. -/
theorem C7_witness :
    sessionsW ≠ [] ∧
    ((identifyPeakHours sessionsW).length = min 3 (occurringHours sessionsW).length ∧
    (∀ h ∈ identifyPeakHours sessionsW, 0 < countHour sessionsW h) ∧
    (identifyPeakHours sessionsW).Pairwise (fun h1 h2 =>
      countHour sessionsW h2 < countHour sessionsW h1 ∨
      (countHour sessionsW h1 = countHour sessionsW h2 ∧ h1 < h2)) ∧
    (∀ h : ℕ, 0 < countHour sessionsW h → h ∉ identifyPeakHours sessionsW →
      ∀ h2 ∈ identifyPeakHours sessionsW,
        countHour sessionsW h < countHour sessionsW h2 ∨
        (countHour sessionsW h = countHour sessionsW h2 ∧ h2 < h))) :=
  ⟨by simp [sessionsW], C7_peak_hours sessionsW (by simp [sessionsW])⟩

/-- Configuration values are modelled by their JSON serialization, so the
`JSON.parse`/`JSON.stringify` round trip through Redis is the identity. -/
abbrev ConfigValue := String

/-- One entry of the in-process cache `localCache`: `{value, timestamp}`. -/
structure LocalEntry where
  value : ConfigValue
  timestamp : ℚ
deriving DecidableEq

/-- The mutable state `getConfig` reads and writes: the in-process `Map`
and the distributed (Redis) store, both as association lists where a
lookup returns the most recent binding. -/
structure EngineState where
  localCache : List (String × LocalEntry)
  redisStore : List (String × ConfigValue)
deriving DecidableEq

/-- Source `Map.prototype.get` / Redis `GET` on the association-list model. -/
def mapGet (m : List (String × β)) (k : String) : Option β :=
  (m.find? (fun p => p.1 == k)).map Prod.snd

/-- Source `Map.prototype.set`: the new binding shadows any previous one. -/
def mapSet (m : List (String × β)) (k : String) (v : β) : List (String × β) :=
  (k, v) :: m

/-- The namespaced Redis key `config_cache:${key}`. -/
def redisKey (key : String) : String := "config_cache:" ++ key

/-- Source `this.cacheTtl = 300000` (milliseconds; the cache timestamps are in the
same unit). -/
def cacheTtl : ℚ := 300000

/-- The possible outcomes of the origin fetch
`axios.get(.../configurations/${key})`: a successful response carrying a
value (`response.data.success` true), a response with `success: false`
(key not found), or a thrown error (timeout, network failure). -/
inductive OriginResult where
  | success : ConfigValue → OriginResult
  | notFound : OriginResult
  | failure : OriginResult
deriving DecidableEq

/-- The body of `GamificationEngine.getConfig` before its `try/catch`:
local-cache hit if present and fresh; otherwise Redis hit (which also
populates the local cache); otherwise the origin fetch, whose success
populates ONLY the local cache; `success: false` yields `null`; a thrown
error propagates (modelled as `Except.error`). -/
def getConfigBody (st : EngineState) (now : ℚ) (key : String)
    (origin : OriginResult) : Except Unit (Option ConfigValue × EngineState) :=
  let localFresh : Option ConfigValue :=
    match mapGet st.localCache key with
    | some e => if now - e.timestamp < cacheTtl then some e.value else none
    | none => none
  match localFresh with
  | some v => Except.ok (some v, st)
  | none =>
    match mapGet st.redisStore (redisKey key) with
    | some rv =>
        Except.ok (some rv,
          { st with localCache := mapSet st.localCache key ⟨rv, now⟩ })
    | none =>
      match origin with
      | OriginResult.success v =>
          Except.ok (some v,
            { st with localCache := mapSet st.localCache key ⟨v, now⟩ })
      | OriginResult.notFound => Except.ok (none, st)
      | OriginResult.failure => Except.error ()

/-- Source `GamificationEngine.getConfig`: the `try/catch` wrapper around the
body — any thrown error is caught and turned into `null` with the state
untouched. -/
def getConfig (st : EngineState) (now : ℚ) (key : String)
    (origin : OriginResult) : Option ConfigValue × EngineState :=
  match getConfigBody st now key origin with
  | Except.ok r => r
  | Except.error _ => (none, st)

/-- The engine state with both cache tiers empty. -/
def emptyEngineState : EngineState := { localCache := [], redisStore := [] }

/-- C3 counterexample: starting from empty caches, a `get` that misses both
tiers and succeeds at the origin returns the fetched value, but the
distributed cache still has no entry for the key afterwards — the resolver
does NOT write the fetched value into both cache tiers. -/
theorem C3_counterexample :
    (getConfig emptyEngineState 0 "k" (OriginResult.success "v")).1 = some "v" ∧
    mapGet (getConfig emptyEngineState 0 "k"
      (OriginResult.success "v")).2.redisStore (redisKey "k") = none ∧
    mapGet (getConfig emptyEngineState 0 "k"
      (OriginResult.success "v")).2.localCache "k" = some ⟨"v", 0⟩ := by
  refine ⟨rfl, rfl, rfl⟩

/-- C3 amended: when a `get(k)` call misses both cache tiers and the origin
fetch succeeds, the resolver writes the fetched value into the in-process
cache ONLY (the distributed cache is left unchanged) before returning it. -/
theorem C3_amended_origin_populates_local_only (st : EngineState) (now : ℚ)
    (key : String) (v : ConfigValue)
    (hlocal : ∀ e, mapGet st.localCache key = some e →
      ¬ now - e.timestamp < cacheTtl)
    (hredis : mapGet st.redisStore (redisKey key) = none) :
    getConfig st now key (OriginResult.success v) =
      (some v, { st with localCache := mapSet st.localCache key ⟨v, now⟩ }) ∧
    (getConfig st now key (OriginResult.success v)).2.redisStore
      = st.redisStore := by
  have hbody : getConfigBody st now key (OriginResult.success v) =
      Except.ok (some v,
        { st with localCache := mapSet st.localCache key ⟨v, now⟩ }) := by
    unfold getConfigBody
    cases hl : mapGet st.localCache key with
    | none =>
        dsimp only
        rw [hredis]
    | some e =>
        dsimp only
        rw [if_neg (hlocal e hl), hredis]
  constructor
  · unfold getConfig
    rw [hbody]
  · unfold getConfig
    rw [hbody]

/-- Witness for C3's amended theorem at the empty state. -/
theorem C3_amended_witness :
    (∀ e, mapGet emptyEngineState.localCache "k" = some e →
      ¬ (0 : ℚ) - e.timestamp < cacheTtl) ∧
    mapGet emptyEngineState.redisStore (redisKey "k") = none ∧
    (getConfig emptyEngineState 0 "k" (OriginResult.success "v") =
      (some "v",
        { emptyEngineState with
            localCache := mapSet emptyEngineState.localCache "k" ⟨"v", 0⟩ }) ∧
    (getConfig emptyEngineState 0 "k" (OriginResult.success "v")).2.redisStore
      = emptyEngineState.redisStore) :=
  ⟨fun _ h => (nomatch h), rfl,
   C3_amended_origin_populates_local_only emptyEngineState 0 "k" "v"
     (fun _ h => (nomatch h)) rfl⟩

/-- C9: `getConfig` never raises to its caller. When both cache tiers miss
and the origin is unreachable or times out (`failure`, which makes the
body throw) or reports the key as not found (`notFound`), the call returns
`null` (`none`) with the state untouched; the throw in the body is
absorbed by the `catch`, never propagated. -/
theorem C9_no_raise (st : EngineState) (now : ℚ) (key : String)
    (origin : OriginResult)
    (hlocal : ∀ e, mapGet st.localCache key = some e →
      ¬ now - e.timestamp < cacheTtl)
    (hredis : mapGet st.redisStore (redisKey key) = none)
    (horigin : origin = OriginResult.failure ∨ origin = OriginResult.notFound) :
    getConfig st now key origin = (none, st) ∧
    (origin = OriginResult.failure →
      getConfigBody st now key origin = Except.error ()) := by
  have hbody : getConfigBody st now key origin =
      (if origin = OriginResult.failure then Except.error ()
       else Except.ok (none, st)) := by
    unfold getConfigBody
    cases hl : mapGet st.localCache key with
    | none =>
        dsimp only
        rw [hredis]
        rcases horigin with rfl | rfl <;> rfl
    | some e =>
        dsimp only
        rw [if_neg (hlocal e hl), hredis]
        rcases horigin with rfl | rfl <;> rfl
  constructor
  · unfold getConfig
    rw [hbody]
    rcases horigin with rfl | rfl <;> rfl
  · intro hf
    rw [hbody, if_pos hf]

/-- Witness for C9 at the empty state with a failing origin. -/
theorem C9_witness :
    (∀ e, mapGet emptyEngineState.localCache "k" = some e →
      ¬ (0 : ℚ) - e.timestamp < cacheTtl) ∧
    mapGet emptyEngineState.redisStore (redisKey "k") = none ∧
    (OriginResult.failure = OriginResult.failure ∨
      OriginResult.failure = OriginResult.notFound) ∧
    (getConfig emptyEngineState 0 "k" OriginResult.failure = (none, emptyEngineState) ∧
    (OriginResult.failure = OriginResult.failure →
      getConfigBody emptyEngineState 0 "k" OriginResult.failure = Except.error ())) :=
  ⟨fun _ h => (nomatch h), rfl, Or.inl rfl,
   C9_no_raise emptyEngineState 0 "k" OriginResult.failure
     (fun _ h => (nomatch h)) rfl (Or.inl rfl)⟩

end Gamify
